import Mathlib

/-
Verification development for the altus4 SDK token-lifecycle subsystem.

The embedding covers the two core source files:
  - src/utils/token-storage.ts   (class TokenStorageManager)
  - src/client/base-client.ts    (class BaseClient)

Modelling conventions:
  - JavaScript timestamps (Date.now(), expiresAt) are Int milliseconds.
  - The browser environment is an explicit Env record: presence of the
    window object, presence of localStorage, and whether each localStorage
    primitive (getItem / setItem / removeItem) throws.  A primitive that
    throws is modelled as an Except.error; the source's try/catch blocks
    are modelled as explicit matches that swallow the error exactly where
    the source catches it.
  - The page-global state touched by TokenStorageManager (the in-memory
    slot window[MEMORY_KEY], the structured localStorage record under
    STORAGE_KEY, and the legacy bare-token key) is the Storage record.
  - JavaScript truthiness on numbers (0 is falsy) and on strings (the
    empty string is falsy) is modelled explicitly at each use site.
-/

/-- StoredTokenData from src/utils/token-storage.ts: the persisted unit of
truth.  userId is optional in the source. -/
structure StoredTokenData where
  token : String
  expiresAt : Option Int
  issuedAt : Int
  userId : Option String
deriving DecidableEq

/-- Content of the structured localStorage entry.  parsed d is a payload
that JSON.parse accepts and that has the typed fields of StoredTokenData;
malformed is a payload on which JSON.parse throws or that is not an object
of the right shape (the validity of the token string itself is checked
separately by isValidTokenData). -/
inductive DurableBlob where
  | malformed : DurableBlob
  | parsed : StoredTokenData → DurableBlob
deriving DecidableEq

/-- The page-global mutable state read and written by TokenStorageManager:
memory is window[MEMORY_KEY], durable is localStorage[STORAGE_KEY], legacy
is localStorage[altus4_token]. -/
structure Storage where
  memory : Option StoredTokenData
  durable : Option DurableBlob
  legacy : Option String
deriving DecidableEq

/-- Execution environment: which globals exist and which localStorage
primitives throw (storage quota, disabled storage, headless context). -/
structure Env where
  hasWindow : Bool
  hasLocalStorage : Bool
  getThrows : Bool
  setThrows : Bool
  removeThrows : Bool
deriving DecidableEq

/-- The empty page-global state: no in-memory slot, no durable record. -/
def storage0 : Storage := ⟨none, none, none⟩

/-- A fully functional browser environment. -/
def envB : Env := ⟨true, true, false, false, false⟩

/-- localStorage.getItem(STORAGE_KEY); throws when the store is broken. -/
def lsGetItem (env : Env) (s : Storage) : Except Unit (Option DurableBlob) :=
  if env.getThrows then .error () else .ok s.durable

/-- localStorage.setItem(STORAGE_KEY, JSON.stringify(tokenData)). -/
def lsSetItem (env : Env) (s : Storage) (b : DurableBlob) : Except Unit Storage :=
  if env.setThrows then .error () else .ok { s with durable := some b }

/-- localStorage.setItem of the legacy bare-token key altus4_token. -/
def lsSetLegacy (env : Env) (s : Storage) (t : String) : Except Unit Storage :=
  if env.setThrows then .error () else .ok { s with legacy := some t }

/-- localStorage.removeItem(STORAGE_KEY). -/
def lsRemoveItem (env : Env) (s : Storage) : Except Unit Storage :=
  if env.removeThrows then .error () else .ok { s with durable := none }

/-- localStorage.removeItem of the legacy key altus4_token. -/
def lsRemoveLegacy (env : Env) (s : Storage) : Except Unit Storage :=
  if env.removeThrows then .error () else .ok { s with legacy := none }

/-- isValidTokenData from token-storage.ts: the payload must be an object
with a non-empty string token and a numeric issuedAt.  The typed fields of
StoredTokenData make everything but the non-emptiness automatic; payloads
of the wrong shape are DurableBlob.malformed. -/
def isValidTokenData (d : StoredTokenData) : Bool :=
  d.token ≠ ""

/-- The record built at the top of saveToken:
expiresAt = expiresIn ? now + expiresIn * 1000 : null, issuedAt = now.
JavaScript truthiness: expiresIn = 0 is falsy, hence null expiresAt. -/
def mkTokenData (token : String) (expiresIn : Option Int) (userId : Option String)
    (now : Int) : StoredTokenData :=
  { token := token
    expiresAt :=
      match expiresIn with
      | some v => if v = 0 then none else some (now + v * 1000)
      | none => none
    issuedAt := now
    userId := userId }

namespace TokenStorageManager

/-- TokenStorageManager.saveToken: build the record, write the in-memory
slot when window exists, then (when window and localStorage exist) write
the structured record and the legacy key inside a try/catch that swallows
any storage exception. -/
def saveToken (env : Env) (s : Storage) (token : String) (expiresIn : Option Int)
    (userId : Option String) (now : Int) : Except Unit Storage :=
  let d := mkTokenData token expiresIn userId now
  let s1 := if env.hasWindow then { s with memory := some d } else s
  if env.hasWindow && env.hasLocalStorage then
    match lsSetItem env s1 (DurableBlob.parsed d) with
    | .ok s2 =>
      match lsSetLegacy env s2 token with
      | .ok s3 => .ok s3
      | .error _ => .ok s2
    | .error _ => .ok s1
  else .ok s1

/-- TokenStorageManager.getTokenData: memory first (when window exists and
the slot holds a structurally valid record), else fall back to
localStorage inside a try/catch; a valid durable read refills the memory
slot; a parse failure or invalid payload yields null. -/
def getTokenData (env : Env) (s : Storage) :
    Except Unit (Option StoredTokenData × Storage) :=
  let memHit : Option StoredTokenData :=
    if env.hasWindow then
      match s.memory with
      | some d => if isValidTokenData d then some d else none
      | none => none
    else none
  match memHit with
  | some d => .ok (some d, s)
  | none =>
    if env.hasWindow && env.hasLocalStorage then
      match lsGetItem env s with
      | .ok (some (DurableBlob.parsed d)) =>
        if isValidTokenData d then .ok (some d, { s with memory := some d })
        else .ok (none, s)
      | .ok (some DurableBlob.malformed) => .ok (none, s)
      | .ok none => .ok (none, s)
      | .error _ => .ok (none, s)
    else .ok (none, s)

/-- TokenStorageManager.clearToken: delete the memory slot when window
exists, then remove both localStorage keys inside a try/catch. -/
def clearToken (env : Env) (s : Storage) : Except Unit Storage :=
  let s1 := if env.hasWindow then { s with memory := none } else s
  if env.hasWindow && env.hasLocalStorage then
    match lsRemoveItem env s1 with
    | .ok s2 =>
      match lsRemoveLegacy env s2 with
      | .ok s3 => .ok s3
      | .error _ => .ok s2
    | .error _ => .ok s1
  else .ok s1

/-- TokenStorageManager.getToken: delegate to getTokenData; a record whose
expiresAt is truthy (non-null and non-zero) with Date.now() >= expiresAt
is expired: clear everything and return null. -/
def getToken (env : Env) (s : Storage) (now : Int) :
    Except Unit (Option String × Storage) :=
  match getTokenData env s with
  | .error e => .error e
  | .ok (none, s1) => .ok (none, s1)
  | .ok (some d, s1) =>
    match d.expiresAt with
    | some e =>
      if e ≠ 0 ∧ e ≤ now then
        match clearToken env s1 with
        | .ok s2 => .ok (none, s2)
        | .error er => .error er
      else .ok (some d.token, s1)
    | none => .ok (some d.token, s1)

/-- TokenStorageManager.getTimeToExpiry: 0 when there is no record or the
record's expiresAt is falsy; otherwise max(0, floor((expiresAt - now) /
1000)). -/
def getTimeToExpiry (env : Env) (s : Storage) (now : Int) :
    Except Unit (Int × Storage) :=
  match getTokenData env s with
  | .error e => .error e
  | .ok (none, s1) => .ok (0, s1)
  | .ok (some d, s1) =>
    match d.expiresAt with
    | some e =>
      if e = 0 then .ok (0, s1)
      else .ok (max 0 (Int.fdiv (e - now) 1000), s1)
    | none => .ok (0, s1)

/-- A Partial of StoredTokenData: each field is present or absent. -/
structure TokenDataPatch where
  token : Option String
  expiresAt : Option (Option Int)
  issuedAt : Option Int
  userId : Option (Option String)
deriving DecidableEq

/-- Object spread of the patch onto the current record. -/
def applyPatch (c : StoredTokenData) (p : TokenDataPatch) : StoredTokenData :=
  { token := p.token.getD c.token
    expiresAt := p.expiresAt.getD c.expiresAt
    issuedAt := p.issuedAt.getD c.issuedAt
    userId := p.userId.getD c.userId }

/-- TokenStorageManager.updateTokenData: read-modify-write; no-op without
a current record; the merged absolute expiresAt is converted back to a
relative TTL (undefined when expiresAt is falsy) before re-entering
saveToken. -/
def updateTokenData (env : Env) (s : Storage) (p : TokenDataPatch) (now : Int) :
    Except Unit Storage :=
  match getTokenData env s with
  | .error e => .error e
  | .ok (none, s1) => .ok s1
  | .ok (some cur, s1) =>
    let u := applyPatch cur p
    saveToken env s1 u.token
      (match u.expiresAt with
       | some e => if e = 0 then none else some (Int.fdiv (e - now) 1000)
       | none => none)
      u.userId now

/-- Total projection of saveToken (it never throws; see the theorems). -/
def saveTokenRun (env : Env) (s : Storage) (token : String) (expiresIn : Option Int)
    (userId : Option String) (now : Int) : Storage :=
  match saveToken env s token expiresIn userId now with
  | .ok r => r
  | .error _ => s

/-- Total projection of getToken. -/
def getTokenRun (env : Env) (s : Storage) (now : Int) : Option String × Storage :=
  match getToken env s now with
  | .ok r => r
  | .error _ => (none, s)

/-- Total projection of clearToken. -/
def clearTokenRun (env : Env) (s : Storage) : Storage :=
  match clearToken env s with
  | .ok r => r
  | .error _ => s

end TokenStorageManager

/-
BaseClient (src/client/base-client.ts).

The refresh/retry protocol is embedded as explicit state passing over a
CState record.  JavaScript's event loop makes each synchronous stretch of
attemptRefreshAndRetry atomic; the only suspension point is the awaited
refresh POST.  Accordingly:
  - handle401 models one call's synchronous entry into
    attemptRefreshAndRetry after the response interceptor decided to
    refresh (lines 86-106): either enqueue a waiter behind the in-flight
    refresh, or mark refresh in progress and issue the refresh POST.
  - refreshSettle models the synchronous continuation that runs when the
    awaited refresh POST settles (lines 110-130).  pendingTrigger records
    the suspended continuation's captured originalRequest/originalError;
    it is consumed when the promise settles (it is bookkeeping for the
    await, not a source field — the source field refreshInProgress is
    modelled verbatim and, like the source, is never set back to false).
Observable actions (retries dispatched, promises rejected) are appended to
an event log; calls and their original 401 errors are identified by Nat
ids.
-/

/-- Observable outcome of one coordinated call: either its original
request was dispatched again (with the Authorization header value used),
or its promise was rejected with the error identified by errId. -/
inductive REvent where
  | retried : Nat → Option String → REvent
  | rejectedWith : Nat → Nat → REvent
deriving DecidableEq

/-- Per-instance client state: the source fields refreshInProgress and
refreshQueue (waiters keyed by call id and original-error id), the
suspended refresh continuation, the shared TokenStorageManager state, the
instance field this.token, a count of refresh POSTs issued, and the event
log. -/
structure CState where
  refreshInProgress : Bool
  refreshQueue : List (Nat × Nat)
  pendingTrigger : Option (Nat × Nat)
  storage : Storage
  memToken : Option String
  refreshCalls : Nat
  events : List REvent
deriving DecidableEq

/-- A client with no refresh activity yet, over the given shared storage
and instance memory token. -/
def cleanState (s : Storage) (m : Option String) : CState :=
  ⟨false, [], none, s, m, 0, []⟩

namespace BaseClient

/-- BaseClient.getToken: prefer TokenStorageManager.getToken and sync
this.token with it; fall back to the in-memory this.token when the store
reports none. -/
def getToken (env : Env) (now : Int) (st : CState) : Option String × CState :=
  match TokenStorageManager.getTokenRun env st.storage now with
  | (some tok, s') => (some tok, { st with storage := s', memToken := some tok })
  | (none, s') => (st.memToken, { st with storage := s' })

/-- BaseClient.setToken: set this.token and persist via
TokenStorageManager.saveToken. -/
def setToken (env : Env) (now : Int) (tok : String) (expiresIn : Option Int)
    (st : CState) : CState :=
  { st with memToken := some tok
            storage := TokenStorageManager.saveTokenRun env st.storage tok expiresIn none now }

/-- BaseClient.clearToken: null this.token and clear the store. -/
def clearToken (env : Env) (st : CState) : CState :=
  { st with memToken := none
            storage := TokenStorageManager.clearTokenRun env st.storage }

/-- Entry of attemptRefreshAndRetry for the call identified by callId
whose 401 error is errId: if a refresh is in progress, push a waiter;
otherwise mark refresh in progress and issue the refresh POST (counted in
refreshCalls, continuation recorded in pendingTrigger). -/
def handle401 (st : CState) (callId errId : Nat) : CState :=
  if st.refreshInProgress then
    { st with refreshQueue := st.refreshQueue ++ [(callId, errId)] }
  else
    { st with refreshInProgress := true
              pendingTrigger := some (callId, errId)
              refreshCalls := st.refreshCalls + 1 }

/-- The queued-waiter success callback, applied to each waiter in queue
order: re-read the token via this.getToken(), attach the Authorization
header when the token is truthy, and re-dispatch the original request. -/
def drainSuccess (env : Env) (now : Int) (st : CState) :
    List (Nat × Nat) → CState × List REvent
  | [] => (st, [])
  | (cid, _) :: rest =>
    let (tok, st1) := getToken env now st
    let hdr : Option String :=
      match tok with
      | some t => if t = "" then none else some ("Bearer " ++ t)
      | none => none
    let (st2, evs) := drainSuccess env now st1 rest
    (st2, REvent.retried cid hdr :: evs)

/-- The template string Bearer ${this.getToken()} used for the triggering
request's retry: a null token interpolates as the text null. -/
def bearerTemplate (t : Option String) : String :=
  match t with
  | some s => "Bearer " ++ s
  | none => "Bearer null"

/-- Failure tail of attemptRefreshAndRetry (lines 126-130): clear the
token, reject every queued waiter with its own original error, empty the
queue, and reject the triggering call with its own original error.  The
source never resets refreshInProgress here. -/
def refreshFail (env : Env) (trig : Nat × Nat) (st : CState) : CState :=
  let st1 := clearToken env st
  { st1 with refreshQueue := []
             events := st1.events
               ++ (st1.refreshQueue.map fun w => REvent.rejectedWith w.1 w.2)
               ++ [REvent.rejectedWith trig.1 trig.2] }

/-- Continuation after the awaited refresh POST settles.  resp is the
value of resp?.data?.token: none when the POST rejected or the body had no
token field; a token is accepted only when truthy (non-empty).  On
success: setToken, drain the queue with success in order, empty the queue,
then retry the triggering request with header Bearer ${this.getToken()}.
The source never resets refreshInProgress on either path. -/
def refreshSettle (env : Env) (now : Int) (resp : Option String) (st : CState) : CState :=
  match st.pendingTrigger with
  | none => st
  | some trig =>
    let st0 := { st with pendingTrigger := none }
    match resp with
    | some tok =>
      if tok = "" then refreshFail env trig st0
      else
        let st1 := setToken env now tok none st0
        let (st2, evs) := drainSuccess env now st1 st1.refreshQueue
        let (ttok, st3) := getToken env now st2
        { st3 with refreshQueue := []
                   events := st3.events ++ evs
                     ++ [REvent.retried trig.1 (some (bearerTemplate ttok))] }
    | none => refreshFail env trig st0

/-- One refresh episode: the listed calls hit the 401 handler in order
(the first while its state allows, the rest during the in-flight refresh),
then the refresh POST settles with resp. -/
def runEpisode (env : Env) (now : Int) (init : CState) (calls : List (Nat × Nat))
    (resp : Option String) : CState :=
  refreshSettle env now resp (calls.foldl (fun a p => handle401 a p.1 p.2) init)

/-- Does the needle occur in the hay (character-level containment, the
semantics of String.includes)?  charsLeadWith n h: n is an initial run of
h. -/
def charsLeadWith : List Char → List Char → Bool
  | [], _ => true
  | _ :: _, [] => false
  | n :: ns, h :: hs => n == h && charsLeadWith ns hs

/-- Containment of the needle at any position of the hay. -/
def charsContain (needle : List Char) : List Char → Bool
  | [] => charsLeadWith needle []
  | h :: hs => charsLeadWith needle (h :: hs) || charsContain needle hs

/-- String.prototype.includes. -/
def strIncludes (hay needle : String) : Bool :=
  charsContain needle.data hay.data

/-- The axios request config fields inspected by the response
interceptor: the request url and the _retry marker. -/
structure ReqConfig where
  url : Option String
  retryFlag : Bool
deriving DecidableEq

/-- originalRequest.url?.includes of the refresh path. -/
def urlIncludesRefresh : Option String → Bool
  | some u => strIncludes u "/auth/refresh"
  | none => false

/-- The interceptor's originalRequest._retry = true marking, applied
before attemptRefreshAndRetry; the retried dispatch reuses this config. -/
def markRetry (c : ReqConfig) : ReqConfig :=
  { c with retryFlag := true }

/-- What the response interceptor's error handler does. -/
inductive InterceptAction where
  | refreshAndRetry : InterceptAction
  | clearAndReject : InterceptAction
  | passThroughReject : InterceptAction
deriving DecidableEq

/-- The response interceptor's error handler (lines 56-78): refresh only
on a 401 with a config that is not already marked _retry and whose url
does not include /auth/refresh; any other 401 clears the in-memory token
and rejects; everything else rejects unchanged. -/
def onResponseError (status : Option Nat) (cfg : Option ReqConfig) : InterceptAction :=
  match cfg with
  | some c =>
    if status == some 401 && !c.retryFlag && !urlIncludesRefresh c.url then
      .refreshAndRetry
    else if status == some 401 then .clearAndReject
    else .passThroughReject
  | none =>
    if status == some 401 then .clearAndReject else .passThroughReject

/-- The error payload of the normalized envelope (types/common.ts). -/
structure ApiErrorInfo where
  code : String
  message : String
deriving DecidableEq

/-- The normalized response envelope ApiResponse<T>. -/
structure ApiResponse (T : Type) where
  success : Bool
  data : Option T
  error : Option ApiErrorInfo
deriving DecidableEq

/-- How one this.client(...) call settles, as seen by request's
try/catch: resolved carries response.data; rejected carries
error.response?.data (the server body, when any) and error.message. -/
inductive AxiosOutcome (T : Type) where
  | resolved : ApiResponse T → AxiosOutcome T
  | rejected : Option (ApiResponse T) → String → AxiosOutcome T

/-- BaseClient.request (lines 136-161): return response.data on success;
on rejection return the server body when the error carries one, otherwise
a NETWORK_ERROR envelope whose message is error.message or the default
text (JavaScript truthiness: an empty message falls back). -/
def request {T : Type} (endpoint : String) (outcome : AxiosOutcome T) : ApiResponse T :=
  match endpoint, outcome with
  | _, .resolved body => body
  | _, .rejected (some d) _ => d
  | _, .rejected none msg =>
    { success := false
      data := none
      error := some { code := "NETWORK_ERROR"
                      message := if msg = "" then "Network request failed" else msg } }

/-- The request interceptor (lines 41-52): attach Authorization: Bearer
token when this.getToken() is truthy. -/
def requestInterceptorHeader (env : Env) (now : Int) (st : CState) :
    Option String × CState :=
  match getToken env now st with
  | (some t, st1) => if t = "" then (none, st1) else (some ("Bearer " ++ t), st1)
  | (none, st1) => (none, st1)

end BaseClient

/-
Helper lemmas about the TokenStorageManager embedding.
-/

/-- saveToken never throws and, when window exists, leaves the freshly
built record in the in-memory slot. -/
theorem tsm_saveToken_memWrite (env : Env) (s : Storage) (t : String) (ex : Option Int)
    (u : Option String) (n : Int) (hw : env.hasWindow = true) :
    ∃ s₁, TokenStorageManager.saveToken env s t ex u n = Except.ok s₁ ∧
      s₁.memory = some (mkTokenData t ex u n) := by
  cases hls : env.hasLocalStorage <;> cases hst : env.setThrows <;>
    simp [TokenStorageManager.saveToken, lsSetItem, lsSetLegacy, hw, hls, hst]

/-- saveToken never throws. -/
theorem tsm_saveToken_ok (env : Env) (s : Storage) (t : String) (ex : Option Int)
    (u : Option String) (n : Int) :
    ∃ r, TokenStorageManager.saveToken env s t ex u n = Except.ok r := by
  cases hw : env.hasWindow <;> cases hls : env.hasLocalStorage <;>
    cases hst : env.setThrows <;>
    simp [TokenStorageManager.saveToken, lsSetItem, lsSetLegacy, hw, hls, hst]

/-- getTokenData never throws. -/
theorem tsm_getTokenData_ok (env : Env) (s : Storage) :
    ∃ r, TokenStorageManager.getTokenData env s = Except.ok r := by
  obtain ⟨mem, dur, leg⟩ := s
  cases hw : env.hasWindow <;> cases hls : env.hasLocalStorage <;>
    cases hg : env.getThrows <;>
    rcases mem with _ | d <;>
    rcases dur with _ | (_ | d₂) <;>
    simp [TokenStorageManager.getTokenData, lsGetItem, hw, hls, hg] <;>
    (repeat' split) <;> simp

/-- A structurally valid record in the in-memory slot short-circuits
getTokenData. -/
theorem tsm_getTokenData_memHit (env : Env) (s : Storage) (d : StoredTokenData)
    (hw : env.hasWindow = true) (hm : s.memory = some d)
    (hv : isValidTokenData d = true) :
    TokenStorageManager.getTokenData env s = Except.ok (some d, s) := by
  simp [TokenStorageManager.getTokenData, hw, hm, hv]

/-- With neither an in-memory slot nor a durable record, getTokenData
reports no token and leaves the state unchanged. -/
theorem tsm_getTokenData_empty (env : Env) (s : Storage)
    (hm : s.memory = none) (hd : s.durable = none) :
    TokenStorageManager.getTokenData env s = Except.ok (none, s) := by
  cases hw : env.hasWindow <;> cases hls : env.hasLocalStorage <;>
    cases hg : env.getThrows <;>
    simp [TokenStorageManager.getTokenData, lsGetItem, hw, hls, hg, hm, hd]

/-- clearToken never throws. -/
theorem tsm_clearToken_ok (env : Env) (s : Storage) :
    ∃ r, TokenStorageManager.clearToken env s = Except.ok r := by
  cases hw : env.hasWindow <;> cases hls : env.hasLocalStorage <;>
    cases hrm : env.removeThrows <;>
    simp [TokenStorageManager.clearToken, lsRemoveItem, lsRemoveLegacy, hw, hls, hrm]

/-- When window exists and removeItem does not throw, clearToken empties
the in-memory slot and (when localStorage exists) both durable keys. -/
theorem tsm_clearToken_spec (env : Env) (s : Storage)
    (hw : env.hasWindow = true) (hrm : env.removeThrows = false) :
    TokenStorageManager.clearToken env s =
      Except.ok (if env.hasLocalStorage then ⟨none, none, none⟩
                 else { s with memory := none }) := by
  cases hls : env.hasLocalStorage <;>
    simp [TokenStorageManager.clearToken, lsRemoveItem, lsRemoveLegacy, hw, hls, hrm]

/-- getToken never throws. -/
theorem tsm_getToken_ok (env : Env) (s : Storage) (now : Int) :
    ∃ r, TokenStorageManager.getToken env s now = Except.ok r := by
  obtain ⟨⟨td, s1⟩, h⟩ := tsm_getTokenData_ok env s
  obtain ⟨s2, h2⟩ := tsm_clearToken_ok env s1
  cases td with
  | none => simp [TokenStorageManager.getToken, h]
  | some d =>
    cases hd : d.expiresAt with
    | none => simp [TokenStorageManager.getToken, h, hd]
    | some e =>
      by_cases hc : e ≠ 0 ∧ e ≤ now
      · simp [TokenStorageManager.getToken, h, hd, hc, h2]
      · simp [TokenStorageManager.getToken, h, hd, hc]

/-- getTimeToExpiry never throws. -/
theorem tsm_getTimeToExpiry_ok (env : Env) (s : Storage) (now : Int) :
    ∃ r, TokenStorageManager.getTimeToExpiry env s now = Except.ok r := by
  obtain ⟨⟨td, s1⟩, h⟩ := tsm_getTokenData_ok env s
  cases td with
  | none => simp [TokenStorageManager.getTimeToExpiry, h]
  | some d =>
    cases hd : d.expiresAt with
    | none => simp [TokenStorageManager.getTimeToExpiry, h, hd]
    | some e =>
      by_cases hc : e = 0
      · simp [TokenStorageManager.getTimeToExpiry, h, hd, hc]
      · simp [TokenStorageManager.getTimeToExpiry, h, hd, hc]

/-- updateTokenData never throws. -/
theorem tsm_updateTokenData_ok (env : Env) (s : Storage)
    (p : TokenStorageManager.TokenDataPatch) (now : Int) :
    ∃ r, TokenStorageManager.updateTokenData env s p now = Except.ok r := by
  obtain ⟨⟨td, s1⟩, h⟩ := tsm_getTokenData_ok env s
  cases td with
  | none => simp [TokenStorageManager.updateTokenData, h]
  | some cur =>
    simp only [TokenStorageManager.updateTokenData, h]
    exact tsm_saveToken_ok env s1 _ _ _ now

/-
Claim theorems about TokenStorageManager.
-/

/-- C4: for every valid token string and positive ttlSeconds, saveToken
followed immediately by getToken returns the token and getTimeToExpiry is
exactly ttlSeconds (hence within 1 second); saveToken with the TTL
omitted yields a null expiresAt, so getToken returns the token after any
delay. -/
theorem saveToken_getToken_roundtrip (env : Env) (s : Storage) (t : String) (ttl : Int)
    (u : Option String) (now : Int) (hw : env.hasWindow = true) (ht : t ≠ "")
    (httl : 0 < ttl) (hnow : 0 ≤ now) :
    (∃ s₁, TokenStorageManager.saveToken env s t (some ttl) u now = Except.ok s₁ ∧
       TokenStorageManager.getToken env s₁ now = Except.ok (some t, s₁) ∧
       TokenStorageManager.getTimeToExpiry env s₁ now = Except.ok (ttl, s₁)) ∧
    (∃ s₂, TokenStorageManager.saveToken env s t none u now = Except.ok s₂ ∧
       ∀ later, TokenStorageManager.getToken env s₂ later = Except.ok (some t, s₂)) := by
  have httl0 : ttl ≠ 0 := by omega
  constructor
  · obtain ⟨s₁, h1, hm⟩ := tsm_saveToken_memWrite env s t (some ttl) u now hw
    have hv : isValidTokenData (mkTokenData t (some ttl) u now) = true := by
      simp [isValidTokenData, mkTokenData, ht]
    have hmem := tsm_getTokenData_memHit env s₁ _ hw hm hv
    have hexp : (mkTokenData t (some ttl) u now).expiresAt = some (now + ttl * 1000) := by
      simp [mkTokenData, httl0]
    have htok : (mkTokenData t (some ttl) u now).token = t := rfl
    refine ⟨s₁, h1, ?_, ?_⟩
    · have hcond : ¬(now + ttl * 1000 ≠ 0 ∧ now + ttl * 1000 ≤ now) := by omega
      simp [TokenStorageManager.getToken, hmem, hexp, hcond, htok]
      intro h1 h2
      exact absurd h2 (by omega)
    · have hne : ¬(now + ttl * 1000 = 0) := by omega
      have harith : max 0 (Int.fdiv (now + ttl * 1000 - now) 1000) = ttl := by
        rw [show now + ttl * 1000 - now = ttl * 1000 by ring, Int.fdiv_eq_ediv] <;> omega
      simp [TokenStorageManager.getTimeToExpiry, hmem, hexp, hne, harith]
      omega
  · obtain ⟨s₂, h2, hm2⟩ := tsm_saveToken_memWrite env s t none u now hw
    have hv2 : isValidTokenData (mkTokenData t none u now) = true := by
      simp [isValidTokenData, mkTokenData, ht]
    have hmem2 := tsm_getTokenData_memHit env s₂ _ hw hm2 hv2
    refine ⟨s₂, h2, fun later => ?_⟩
    simp [TokenStorageManager.getToken, hmem2, mkTokenData]

/-- Witness for C4 at a concrete input. -/
theorem saveToken_getToken_roundtrip_witness :
    (∃ s₁, TokenStorageManager.saveToken envB storage0 "abc" (some 3600) none 1000 = Except.ok s₁ ∧
       TokenStorageManager.getToken envB s₁ 1000 = Except.ok (some "abc", s₁) ∧
       TokenStorageManager.getTimeToExpiry envB s₁ 1000 = Except.ok (3600, s₁)) ∧
    (∃ s₂, TokenStorageManager.saveToken envB storage0 "abc" none none 1000 = Except.ok s₂ ∧
       ∀ later, TokenStorageManager.getToken envB s₂ later = Except.ok (some "abc", s₂)) :=
  saveToken_getToken_roundtrip envB storage0 "abc" 3600 none 1000 rfl
    (by decide) (by decide) (by decide)

/-- C5 counterexample: a stored record whose expiresAt is non-null (the
timestamp 0) and at or before the current time 1000 is NOT treated as
expired: getToken returns the token and leaves the record in place,
because the source guards the expiry check with the numeric truthiness of
expiresAt and 0 is falsy. -/
theorem getToken_zeroExpiry_counterexample :
    TokenStorageManager.getToken envB
        (⟨some ⟨"t", some 0, 5, none⟩, none, none⟩ : Storage) 1000 =
      Except.ok (some "t", (⟨some ⟨"t", some 0, 5, none⟩, none, none⟩ : Storage)) ∧
    (some (0 : Int) ≠ (none : Option Int)) ∧ (0 : Int) ≤ 1000 :=
  ⟨rfl, by decide, by decide⟩

/-- C5 as amended: for every stored record whose expiresAt is non-null,
NON-ZERO and at or before the current time, getToken returns null and, as
a side effect, clears the record entirely (in-memory slot, and the
durable record when localStorage is present and functioning), so a
subsequent getTokenData returns null; a record with expiresAt strictly in
the future is returned unchanged. -/
theorem getToken_expired_clears_record (env : Env) (s : Storage) (d : StoredTokenData)
    (e now : Int) (hw : env.hasWindow = true) (hrm : env.removeThrows = false)
    (hm : s.memory = some d) (ht : d.token ≠ "") (he : d.expiresAt = some e) :
    (e ≠ 0 → e ≤ now →
      TokenStorageManager.getToken env s now =
        Except.ok (none, TokenStorageManager.clearTokenRun env s) ∧
      (TokenStorageManager.clearTokenRun env s).memory = none ∧
      (env.hasLocalStorage = true → (TokenStorageManager.clearTokenRun env s).durable = none) ∧
      TokenStorageManager.getTokenData env (TokenStorageManager.clearTokenRun env s) =
        Except.ok (none, TokenStorageManager.clearTokenRun env s)) ∧
    (now < e → TokenStorageManager.getToken env s now = Except.ok (some d.token, s)) := by
  have hv : isValidTokenData d = true := by simp [isValidTokenData, ht]
  have hmem := tsm_getTokenData_memHit env s d hw hm hv
  have hclr := tsm_clearToken_spec env s hw hrm
  have hcrun : TokenStorageManager.clearTokenRun env s =
      (if env.hasLocalStorage then ⟨none, none, none⟩ else { s with memory := none }) := by
    simp [TokenStorageManager.clearTokenRun, hclr]
  constructor
  · intro hne hle
    have hcond : e ≠ 0 ∧ e ≤ now := ⟨hne, hle⟩
    cases hls : env.hasLocalStorage
    · simp only [hls, if_false] at hcrun
      refine ⟨?_, ?_, ?_, ?_⟩
      · simp [TokenStorageManager.getToken, hmem, he, hcond, hclr, hls, hcrun]
      · simp [hcrun]
      · intro hcontra; exact absurd hcontra (by simp [hls])
      · rw [hcrun]
        cases hwin2 : env.hasWindow <;>
          simp [TokenStorageManager.getTokenData, hls, hwin2]
    · simp only [hls, if_true] at hcrun
      refine ⟨?_, ?_, ?_, ?_⟩
      · simp [TokenStorageManager.getToken, hmem, he, hcond, hclr, hls, hcrun]
      · simp [hcrun]
      · intro _; simp [hcrun]
      · rw [hcrun]
        exact tsm_getTokenData_empty env ⟨none, none, none⟩ rfl rfl
  · intro hlt
    have hcond : ¬(e ≠ 0 ∧ e ≤ now) := by omega
    simp [TokenStorageManager.getToken, hmem, he, hcond]

/-- Witness for the amended C5 at a concrete expired record. -/
theorem getToken_expired_clears_record_witness :
    ((500 : Int) ≠ 0 → (500 : Int) ≤ 1000 →
      TokenStorageManager.getToken envB
          (⟨some ⟨"tk", some 500, 5, none⟩, none, none⟩ : Storage) 1000 =
        Except.ok (none, TokenStorageManager.clearTokenRun envB
          (⟨some ⟨"tk", some 500, 5, none⟩, none, none⟩ : Storage)) ∧
      (TokenStorageManager.clearTokenRun envB
          (⟨some ⟨"tk", some 500, 5, none⟩, none, none⟩ : Storage)).memory = none ∧
      (envB.hasLocalStorage = true → (TokenStorageManager.clearTokenRun envB
          (⟨some ⟨"tk", some 500, 5, none⟩, none, none⟩ : Storage)).durable = none) ∧
      TokenStorageManager.getTokenData envB (TokenStorageManager.clearTokenRun envB
          (⟨some ⟨"tk", some 500, 5, none⟩, none, none⟩ : Storage)) =
        Except.ok (none, TokenStorageManager.clearTokenRun envB
          (⟨some ⟨"tk", some 500, 5, none⟩, none, none⟩ : Storage))) ∧
    ((1000 : Int) < 500 → TokenStorageManager.getToken envB
        (⟨some ⟨"tk", some 500, 5, none⟩, none, none⟩ : Storage) 1000 =
      Except.ok (some (⟨"tk", some 500, 5, none⟩ : StoredTokenData).token,
        (⟨some ⟨"tk", some 500, 5, none⟩, none, none⟩ : Storage))) :=
  getToken_expired_clears_record envB _ _ 500 1000 rfl rfl rfl (by decide) rfl

/-- C10: saveToken with a ttlSeconds of exactly 0 stores a record with
null expiresAt, identically to an omitted TTL: the token never expires
and getToken returns it at any later time. -/
theorem saveToken_zeroTtl_neverExpires (env : Env) (s : Storage) (t : String)
    (u : Option String) (now : Int) (hw : env.hasWindow = true) (ht : t ≠ "") :
    ∃ s₁, TokenStorageManager.saveToken env s t (some 0) u now = Except.ok s₁ ∧
      s₁.memory = some (mkTokenData t (some 0) u now) ∧
      (mkTokenData t (some 0) u now).expiresAt = none ∧
      ∀ later, TokenStorageManager.getToken env s₁ later = Except.ok (some t, s₁) := by
  obtain ⟨s₁, h1, hm⟩ := tsm_saveToken_memWrite env s t (some 0) u now hw
  have hv : isValidTokenData (mkTokenData t (some 0) u now) = true := by
    simp [isValidTokenData, mkTokenData, ht]
  have hmem := tsm_getTokenData_memHit env s₁ _ hw hm hv
  refine ⟨s₁, h1, hm, by simp [mkTokenData], fun later => ?_⟩
  simp [TokenStorageManager.getToken, hmem, mkTokenData]

/-- Witness for C10 at a concrete input. -/
theorem saveToken_zeroTtl_neverExpires_witness :
    ∃ s₁, TokenStorageManager.saveToken envB storage0 "t" (some 0) none 1000 = Except.ok s₁ ∧
      s₁.memory = some (mkTokenData "t" (some 0) none 1000) ∧
      (mkTokenData "t" (some 0) none 1000).expiresAt = none ∧
      ∀ later, TokenStorageManager.getToken envB s₁ later = Except.ok (some "t", s₁) :=
  saveToken_zeroTtl_neverExpires envB storage0 "t" none 1000 rfl (by decide)

/-- C6: no TokenStorageManager operation throws, for every environment,
including environments where the durable store is absent or where its
get, set and remove primitives throw; and in particular, when every
durable-store set throws, saveToken of the token y still completes (its
only effect is the in-memory write) and a subsequent same-runtime
getToken still returns y from the in-memory slot. -/
theorem tokenStorage_never_throws :
    (∀ env s t ex u n, ∃ r, TokenStorageManager.saveToken env s t ex u n = Except.ok r) ∧
    (∀ env s, ∃ r, TokenStorageManager.getTokenData env s = Except.ok r) ∧
    (∀ env s now, ∃ r, TokenStorageManager.getToken env s now = Except.ok r) ∧
    (∀ env s, ∃ r, TokenStorageManager.clearToken env s = Except.ok r) ∧
    (∀ env s p now, ∃ r, TokenStorageManager.updateTokenData env s p now = Except.ok r) ∧
    (∀ env s now, ∃ r, TokenStorageManager.getTimeToExpiry env s now = Except.ok r) ∧
    (∀ env s now, env.hasWindow = true → env.setThrows = true →
      TokenStorageManager.saveToken env s "y" (some 60) none now =
        Except.ok { s with memory := some (mkTokenData "y" (some 60) none now) } ∧
      TokenStorageManager.getToken env
          { s with memory := some (mkTokenData "y" (some 60) none now) } now =
        Except.ok (some "y", { s with memory := some (mkTokenData "y" (some 60) none now) })) := by
  refine ⟨tsm_saveToken_ok, tsm_getTokenData_ok, tsm_getToken_ok, tsm_clearToken_ok,
    tsm_updateTokenData_ok, tsm_getTimeToExpiry_ok, ?_⟩
  intro env s now hw hst
  constructor
  · cases hls : env.hasLocalStorage <;>
      simp [TokenStorageManager.saveToken, lsSetItem, hw, hst, hls]
  · have hv : isValidTokenData (mkTokenData "y" (some 60) none now) = true := by
      simp [isValidTokenData, mkTokenData]
    have hmem := tsm_getTokenData_memHit env
      { s with memory := some (mkTokenData "y" (some 60) none now) } _ hw rfl hv
    have hexp : (mkTokenData "y" (some 60) none now).expiresAt = some (now + 60 * 1000) := by
      simp [mkTokenData]
    have hcond : ¬(now + 60 * 1000 ≠ 0 ∧ now + 60 * 1000 ≤ now) := by omega
    have htok : (mkTokenData "y" (some 60) none now).token = "y" := rfl
    simp [TokenStorageManager.getToken, hmem, hexp, hcond, htok]

/-- Witness for C6 with a throwing setItem in an otherwise functional
browser environment. -/
theorem tokenStorage_never_throws_witness :
    TokenStorageManager.saveToken ⟨true, true, false, true, false⟩ storage0 "y"
        (some 60) none 7 =
      Except.ok { storage0 with memory := some (mkTokenData "y" (some 60) none 7) } ∧
    TokenStorageManager.getToken ⟨true, true, false, true, false⟩
        { storage0 with memory := some (mkTokenData "y" (some 60) none 7) } 7 =
      Except.ok (some "y",
        { storage0 with memory := some (mkTokenData "y" (some 60) none 7) }) :=
  tokenStorage_never_throws.2.2.2.2.2.2 ⟨true, true, false, true, false⟩ storage0 7 rfl rfl

/-
Helper lemmas about the BaseClient embedding.
-/

/-- While a refresh is in progress, every further 401 only appends a
waiter to the queue. -/
theorem client_queue_foldl (cs : List (Nat × Nat)) :
    ∀ st : CState, st.refreshInProgress = true →
      cs.foldl (fun a p => BaseClient.handle401 a p.1 p.2) st =
        { st with refreshQueue := st.refreshQueue ++ cs } := by
  induction cs with
  | nil => intro st h; simp
  | cons p rest ih =>
    intro st h
    have h1 : BaseClient.handle401 st p.1 p.2 =
        { st with refreshQueue := st.refreshQueue ++ [p] } := by
      simp [BaseClient.handle401, h]
    rw [List.foldl_cons, h1, ih { st with refreshQueue := st.refreshQueue ++ [p] } h]
    simp

/-- clearToken leaves no in-memory record, whatever the durable store
does. -/
theorem tsm_clearTokenRun_memory (env : Env) (s : Storage) (hw : env.hasWindow = true) :
    (TokenStorageManager.clearTokenRun env s).memory = none := by
  cases hls : env.hasLocalStorage <;> cases hrm : env.removeThrows <;>
    simp [TokenStorageManager.clearTokenRun, TokenStorageManager.clearToken,
      lsRemoveItem, lsRemoveLegacy, hw, hls, hrm]

/-- With a functioning removeItem, clearToken also leaves no durable
record. -/
theorem tsm_clearTokenRun_durable (env : Env) (s : Storage) (hw : env.hasWindow = true)
    (hls : env.hasLocalStorage = true) (hrm : env.removeThrows = false) :
    (TokenStorageManager.clearTokenRun env s).durable = none := by
  simp [TokenStorageManager.clearTokenRun, tsm_clearToken_spec env s hw hrm, hls]

/-- On an empty storage state, getToken reports no token and changes
nothing. -/
theorem tsm_getTokenRun_empty (env : Env) (s : Storage) (now : Int)
    (hm : s.memory = none) (hd : s.durable = none) :
    TokenStorageManager.getTokenRun env s now = (none, s) := by
  have h := tsm_getTokenData_empty env s hm hd
  simp [TokenStorageManager.getTokenRun, TokenStorageManager.getToken, h]

/-
Claim theorems about BaseClient.
-/

/-- C3: whenever the refresh call fails (the promise rejects, or the body
carries no truthy token), the stored token is cleared, every queued
waiter's call rejects with that call's own original authorization error,
the triggering call rejects with its own original authorization error,
and the queue is emptied. -/
theorem refresh_failure_fanout (env : Env) (now : Int) (s : Storage) (m : Option String)
    (c e : Nat) (cs : List (Nat × Nat)) (resp : Option String)
    (hw : env.hasWindow = true) (hresp : resp = none ∨ resp = some "") :
    (BaseClient.runEpisode env now (cleanState s m) ((c, e) :: cs) resp).events =
      cs.map (fun w => REvent.rejectedWith w.1 w.2) ++ [REvent.rejectedWith c e] ∧
    (BaseClient.runEpisode env now (cleanState s m) ((c, e) :: cs) resp).memToken = none ∧
    (BaseClient.runEpisode env now (cleanState s m) ((c, e) :: cs) resp).storage.memory = none ∧
    (BaseClient.runEpisode env now (cleanState s m) ((c, e) :: cs) resp).refreshQueue = [] ∧
    (BaseClient.runEpisode env now (cleanState s m) ((c, e) :: cs) resp).refreshCalls = 1 ∧
    (env.hasLocalStorage = true → env.removeThrows = false →
      (BaseClient.runEpisode env now (cleanState s m) ((c, e) :: cs) resp).storage.durable = none) := by
  have hstart : BaseClient.handle401 (cleanState s m) c e =
      (⟨true, [], some (c, e), s, m, 1, []⟩ : CState) := by
    simp [BaseClient.handle401, cleanState]
  have hrun : BaseClient.runEpisode env now (cleanState s m) ((c, e) :: cs) resp =
      BaseClient.refreshSettle env now resp (⟨true, cs, some (c, e), s, m, 1, []⟩ : CState) := by
    simp only [BaseClient.runEpisode, List.foldl_cons]
    rw [hstart, client_queue_foldl cs _ rfl]
    simp
  have hsettle : BaseClient.refreshSettle env now resp
      (⟨true, cs, some (c, e), s, m, 1, []⟩ : CState) =
      (⟨true, [], none, TokenStorageManager.clearTokenRun env s, none, 1,
        cs.map (fun w => REvent.rejectedWith w.1 w.2) ++ [REvent.rejectedWith c e]⟩ : CState) := by
    rcases hresp with h | h <;> subst h <;>
      simp [BaseClient.refreshSettle, BaseClient.refreshFail, BaseClient.clearToken]
  rw [hrun, hsettle]
  exact ⟨rfl, rfl, tsm_clearTokenRun_memory env s hw, rfl, rfl,
    fun hls hrm => tsm_clearTokenRun_durable env s hw hls hrm⟩

/-- Witness for C3: three concurrent calls, refresh rejects. -/
theorem refresh_failure_fanout_witness :
    (BaseClient.runEpisode envB 3000 (cleanState storage0 (some "old"))
        [(0, 10), (1, 11), (2, 12)] none).events =
      [(1, 11), (2, 12)].map (fun w => REvent.rejectedWith w.1 w.2) ++
        [REvent.rejectedWith 0 10] ∧
    (BaseClient.runEpisode envB 3000 (cleanState storage0 (some "old"))
        [(0, 10), (1, 11), (2, 12)] none).memToken = none ∧
    (BaseClient.runEpisode envB 3000 (cleanState storage0 (some "old"))
        [(0, 10), (1, 11), (2, 12)] none).storage.memory = none ∧
    (BaseClient.runEpisode envB 3000 (cleanState storage0 (some "old"))
        [(0, 10), (1, 11), (2, 12)] none).refreshQueue = [] ∧
    (BaseClient.runEpisode envB 3000 (cleanState storage0 (some "old"))
        [(0, 10), (1, 11), (2, 12)] none).refreshCalls = 1 ∧
    (envB.hasLocalStorage = true → envB.removeThrows = false →
      (BaseClient.runEpisode envB 3000 (cleanState storage0 (some "old"))
        [(0, 10), (1, 11), (2, 12)] none).storage.durable = none) :=
  refresh_failure_fanout envB 3000 storage0 (some "old") 0 10 [(1, 11), (2, 12)] none
    rfl (Or.inl rfl)

/-- C1 evaluation: in the source, attemptRefreshAndRetry never assigns
refreshInProgress = false, so after a refresh episode settles — whether
the refresh succeeded or failed — the flag is still true even though the
refresh promise has been consumed (pendingTrigger is none, nothing is in
flight). -/
theorem refreshInProgress_never_reset :
    (BaseClient.runEpisode envB 1000 (cleanState storage0 none) [(0, 100)]
        (some "tokA")).refreshInProgress = true ∧
    (BaseClient.runEpisode envB 1000 (cleanState storage0 none) [(0, 100)]
        (some "tokA")).pendingTrigger = none ∧
    (BaseClient.runEpisode envB 1500 (cleanState storage0 none) [(1, 101)]
        none).refreshInProgress = true ∧
    (BaseClient.runEpisode envB 1500 (cleanState storage0 none) [(1, 101)]
        none).pendingTrigger = none := by
  decide

/-- C2 evaluation: after an earlier refresh episode has fully settled
(nothing is in flight: pendingTrigger is none), a fresh authorization
failure on the same instance issues no refresh call at all — it is only
queued behind the stale refreshInProgress flag — instead of the exactly
one refresh call the claim requires. -/
theorem post_settle_auth_failure_issues_no_refresh :
    (BaseClient.runEpisode envB 2000 (cleanState storage0 none) [(5, 50)]
        (some "tokB")).pendingTrigger = none ∧
    (BaseClient.handle401 (BaseClient.runEpisode envB 2000 (cleanState storage0 none)
        [(5, 50)] (some "tokB")) 6 60).refreshCalls =
      (BaseClient.runEpisode envB 2000 (cleanState storage0 none) [(5, 50)]
        (some "tokB")).refreshCalls ∧
    (BaseClient.runEpisode envB 2000 (cleanState storage0 none) [(5, 50)]
        (some "tokB")).refreshCalls = 1 ∧
    (BaseClient.handle401 (BaseClient.runEpisode envB 2000 (cleanState storage0 none)
        [(5, 50)] (some "tokB")) 6 60).refreshQueue = [(6, 60)] := by
  decide

/-- C7: the response interceptor never routes a 401 into the refresh
protocol when the failing request is the refresh call itself (its url
includes /auth/refresh), nor when the request is already marked _retry —
in particular a retried request's second 401 is surfaced by rejection,
with no further refresh or retry. -/
theorem refresh_call_and_retry_never_retrigger :
    (∀ (status : Option Nat) (c : BaseClient.ReqConfig),
        BaseClient.urlIncludesRefresh c.url = true →
        BaseClient.onResponseError status (some c) ≠
          BaseClient.InterceptAction.refreshAndRetry) ∧
    (∀ (status : Option Nat) (c : BaseClient.ReqConfig), c.retryFlag = true →
        BaseClient.onResponseError status (some c) ≠
          BaseClient.InterceptAction.refreshAndRetry) ∧
    (∀ c : BaseClient.ReqConfig,
        BaseClient.onResponseError (some 401) (some (BaseClient.markRetry c)) =
          BaseClient.InterceptAction.clearAndReject) := by
  refine ⟨?_, ?_, ?_⟩
  · intro status c h
    simp only [BaseClient.onResponseError, h]
    (repeat' split) <;> simp_all
  · intro status c h
    simp only [BaseClient.onResponseError, h]
    (repeat' split) <;> simp_all
  · intro c
    simp [BaseClient.onResponseError, BaseClient.markRetry]

/-- Witness for C7 at concrete configs. -/
theorem refresh_call_and_retry_never_retrigger_witness :
    BaseClient.onResponseError (some 401)
        (some ⟨some "/api/v1/auth/refresh", false⟩) ≠
      BaseClient.InterceptAction.refreshAndRetry ∧
    BaseClient.onResponseError (some 401) (some ⟨some "/search", true⟩) ≠
      BaseClient.InterceptAction.refreshAndRetry ∧
    BaseClient.onResponseError (some 401)
        (some (BaseClient.markRetry ⟨some "/search", false⟩)) =
      BaseClient.InterceptAction.clearAndReject :=
  ⟨refresh_call_and_retry_never_retrigger.1 (some 401) ⟨some "/api/v1/auth/refresh", false⟩
      (by decide),
   refresh_call_and_retry_never_retrigger.2.1 (some 401) ⟨some "/search", true⟩ rfl,
   refresh_call_and_retry_never_retrigger.2.2 ⟨some "/search", false⟩⟩

/-- C8: request returns the normalized envelope and never throws for
ordinary failures: a resolved call yields its body, a rejection carrying a
server body yields that body, and a rejection without a body yields a
success=false envelope with the machine-readable NETWORK_ERROR code and a
non-empty human-readable message. -/
theorem request_normalizes_failures (T : Type) (endpoint : String)
    (body d : BaseClient.ApiResponse T) (msg : String) :
    BaseClient.request endpoint (BaseClient.AxiosOutcome.resolved body) = body ∧
    BaseClient.request endpoint (BaseClient.AxiosOutcome.rejected (some d) msg) = d ∧
    BaseClient.request endpoint
        (BaseClient.AxiosOutcome.rejected (none : Option (BaseClient.ApiResponse T)) msg) =
      { success := false
        data := none
        error := some { code := "NETWORK_ERROR"
                        message := if msg = "" then "Network request failed" else msg } } ∧
    (BaseClient.request endpoint
        (BaseClient.AxiosOutcome.rejected (none : Option (BaseClient.ApiResponse T)) msg)).error.map
      BaseClient.ApiErrorInfo.message ≠ some "" := by
  refine ⟨rfl, rfl, rfl, ?_⟩
  by_cases h : msg = "" <;> simp [BaseClient.request, h]

/-- C9: BaseClient.getToken falls back to the instance's private
in-memory token whenever the shared store reports none; consequently,
after the shared record is gone, an instance that previously observed a
token still attaches that stale bearer token to outbound requests. -/
theorem client_getToken_memory_fallback :
    (∀ (env : Env) (now : Int) (st : CState),
        (TokenStorageManager.getTokenRun env st.storage now).1 = none →
        (BaseClient.getToken env now st).1 = st.memToken) ∧
    (∀ (env : Env) (now : Int) (st : CState) (t : String),
        st.storage.memory = none → st.storage.durable = none →
        st.memToken = some t → t ≠ "" →
        (BaseClient.requestInterceptorHeader env now st).1 = some ("Bearer " ++ t)) := by
  constructor
  · intro env now st h
    rcases hq : TokenStorageManager.getTokenRun env st.storage now with ⟨r, s2⟩
    rw [hq] at h
    simp at h
    subst h
    simp [BaseClient.getToken, hq]
  · intro env now st t hm hd hmt hne
    have hrun := tsm_getTokenRun_empty env st.storage now hm hd
    simp [BaseClient.requestInterceptorHeader, BaseClient.getToken, hrun, hmt, hne]

/-- Witness for C9: the shared store is empty, the instance remembers a
stale token, and the request interceptor still attaches it. -/
theorem client_getToken_memory_fallback_witness :
    (BaseClient.requestInterceptorHeader envB 0 (cleanState storage0 (some "stale"))).1 =
      some ("Bearer " ++ "stale") :=
  client_getToken_memory_fallback.2 envB 0 (cleanState storage0 (some "stale")) "stale"
    rfl rfl rfl (by decide)
